import Mathlib

/-!
Shallow embedding of the schema-registry lifecycle engine of graphql-hive:
the project-type models (`SingleModel`, `CompositeModel`), the validation
pipeline (`SchemaValidator`), the federation orchestrator post-processing,
the schema publisher dispatch and its effect footprint, and the version
store service-name normalisation.  External collaborators (the composition
RPC service, the MD5 digest, the schema differ) are modelled as explicit
function parameters; failures of fallible code are `Except` values.
-/

/-! ## Basic entities (shared/entities.ts) -/

inductive ProjectType
  | FEDERATION
  | STITCHING
  | SINGLE
  | CUSTOM
deriving Repr, DecidableEq

def ProjectType.asString : ProjectType → String
  | .FEDERATION => "FEDERATION"
  | .STITCHING => "STITCHING"
  | .SINGLE => "SINGLE"
  | .CUSTOM => "CUSTOM"

def ProjectType.toLowerString (t : ProjectType) : String :=
  t.asString.toLower

structure Project where
  id : String
  orgId : String
  type : ProjectType
  isUsingLegacyRegistryModel : Bool
  gitRepository : Option String
deriving Repr, DecidableEq

structure Target where
  id : String
deriving Repr, DecidableEq

/-- The placeholder id/author/commit value used by the models for a not yet
persisted incoming schema (`temp` in models/shared). -/
def temp : String := "temp"

/-- Source label used by `createSchemaObject` for single schemas. -/
def emptySource : String := "*"

inductive CompositeAction
  | ADD
  | MODIFY
deriving Repr, DecidableEq

/-- The `AddedCompositeSchema | ModifiedCompositeSchema` union: both carry the
same fields, distinguished by the `action` literal. -/
structure CompositeSchema where
  id : String
  author : String
  date : Nat
  commit : String
  target : String
  sdl : String
  service_name : String
  service_url : Option String
  action : CompositeAction
  metadata : Option String
deriving Repr, DecidableEq

structure SingleSchema where
  id : String
  author : String
  date : Nat
  commit : String
  target : String
  sdl : String
  metadata : Option String
deriving Repr, DecidableEq

structure DeletedSchema where
  id : String
  author : String
  date : Nat
  commit : String
  target : String
  service_name : String
deriving Repr, DecidableEq

/-- The `Schema` union of shared/entities.ts. -/
inductive Schema
  | single (s : SingleSchema)
  | composite (c : CompositeSchema)
  | deleted (d : DeletedSchema)
deriving Repr, DecidableEq

/-- `SchemaObject`: the parsed document is modelled by the raw SDL string it
was parsed from (parsing and printing are external library calls). -/
structure SchemaObject where
  document : String
  raw : String
  source : String
  url : Option String
deriving Repr, DecidableEq

structure SchemaError where
  message : String
  path : Option (List String)
deriving Repr, DecidableEq

inductive Criticality
  | Breaking
  | Dangerous
  | Safe
deriving Repr, DecidableEq

structure SchemaChange where
  criticality : Criticality
  message : String
  path : Option (List String)
deriving Repr, DecidableEq

structure ValidationResult where
  isComposable : Bool
  hasBreakingChanges : Bool
  errors : List SchemaError
  changes : List SchemaChange
deriving Repr, DecidableEq

/-! ## Schema helper (schema-helper.ts) -/

def isAddedOrModified : Schema → Bool
  | .composite _ => true
  | _ => false

/-- `currentSchemas.filter(isAddedOrModified)` with the TypeScript type
narrowing to the composite union made explicit. -/
def filterAddedOrModified (schemas : List Schema) : List CompositeSchema :=
  schemas.filterMap fun s =>
    match s with
    | .composite c => some c
    | _ => none

/-- `ensureCompositeSchemas`: `CompositeSchemaModel.parse` each entry; the
zod parse throws when an entry is not an ADD/MODIFY composite schema. -/
def ensureCompositeSchemas (schemas : List Schema) : Except String (List CompositeSchema) :=
  schemas.mapM fun s =>
    match s with
    | .composite c => Except.ok c
    | _ => Except.error "CompositeSchemaModel.parse failed: not a composite schema"

/-- `createSchemaObject` at a composite schema. -/
def createSchemaObject (s : CompositeSchema) : SchemaObject :=
  { document := s.sdl, raw := s.sdl, source := s.service_name, url := s.service_url }

/-- `createSchemaObject` at a single schema (no `service_name`/`service_url`
properties, hence the `emptySource` label and a null url). -/
def createSchemaObjectSingle (s : SingleSchema) : SchemaObject :=
  { document := s.sdl, raw := s.sdl, source := emptySource, url := none }

def serviceExists (schemas : List CompositeSchema) (serviceName : String) : Bool :=
  schemas.any fun s => s.service_name == serviceName

/-- `swapServices`: replace every same-named service by the new schema; the
`existing` component is the service the loop last recorded as swapped (live
sets have unique names, so at most one), and when no service matched the new
schema is appended instead. -/
def swapServices (schemas : List CompositeSchema) (newSchema : CompositeSchema) :
    List CompositeSchema × Option CompositeSchema :=
  let swapped := (schemas.filter fun s => s.service_name == newSchema.service_name).getLast?
  let output := schemas.map fun s =>
    if s.service_name == newSchema.service_name then newSchema else s
  match swapped with
  | some _ => (output, swapped)
  | none => (output ++ [newSchema], none)

def orderedInsertB {α : Type} (le : α → α → Bool) (a : α) : List α → List α
  | [] => [a]
  | b :: l => if le a b then a :: b :: l else b :: orderedInsertB le a l

def insertionSortB {α : Type} (le : α → α → Bool) : List α → List α
  | [] => []
  | a :: l => orderedInsertB le a (insertionSortB le l)

/-- `SchemaHelper.sortSchemas`: stable sort by `service_name`
(`localeCompare` comparator, stable in V8). -/
def sortSchemas (schemas : List CompositeSchema) : List CompositeSchema :=
  insertionSortB (fun a b => a.service_name ≤ b.service_name) schemas

/-- External pure collaborators of the validation pipeline: `digest` stands
for `md5 ∘ print ∘ sortDocumentNode` (shared/schema.ts, crypto), and `diff`
for `Inspector.diff` composed with `buildSchema` on both sides; a `.error`
is a thrown build/diff failure carrying the error message. -/
structure DiffEnv where
  digest : String → String
  diff : SchemaObject → SchemaObject → Except String (List SchemaChange)

/-- Modelled from the spec: `hashSchema` (shared/schema.ts, not under src/)
hashes the canonically sorted printed document with MD5; only the document
participates. -/
def hashSchema (env : DiffEnv) (o : SchemaObject) : String :=
  env.digest o.document

/-- `SchemaHelper.createChecksum`: MD5 of the sorted printed document of the
schema object. -/
def createChecksum (env : DiffEnv) (s : CompositeSchema) : String :=
  env.digest (createSchemaObject s).document

def createChecksumSingle (env : DiffEnv) (s : SingleSchema) : String :=
  env.digest (createSchemaObjectSingle s).document

/-- The concatenated per-service checksum string of a sorted schema set, as
built inline by `CompositeModel.publish`. -/
def joinedChecksums (env : DiffEnv) (schemas : List CompositeSchema) : String :=
  String.intercalate "," ((sortSchemas schemas).map (createChecksum env))

/-! ## Orchestrator client model -/

/-- The per-project orchestrator, with the composition service RPC results
abstracted as functions of the schema set. -/
structure OrchestratorModel where
  validate : List SchemaObject → List SchemaError
  build : List SchemaObject → Except String SchemaObject
  supergraph : List SchemaObject → Option String

/-! ## Validation pipeline (schema-validator.ts) -/

/-- Base-schema application: prepend the base schema content to the first
member of `after` (raw and document); a missing or empty base is a no-op. -/
def withBase (baseSchema : Option String) (after : List SchemaObject) : List SchemaObject :=
  match baseSchema with
  | none => after
  | some base =>
    if base = "" then after
    else
      match after with
      | [] => []
      | first :: rest =>
        { first with raw := base ++ first.raw, document := base ++ first.document } :: rest

/-- The `Promise.all([build(before), build(after)])` + `inspector.diff` block
of `SchemaValidator.validate`; an `.error` is the caught exception. -/
def comparedChanges (env : DiffEnv) (orchestrator : OrchestratorModel)
    (before after : List SchemaObject) : Except String (List SchemaChange) :=
  match orchestrator.build before, orchestrator.build after with
  | .ok existingSchema, .ok incomingSchema => env.diff existingSchema incomingSchema
  | .error e, _ => .error e
  | _, .error e => .error e

/-- `SchemaValidator.validate`.  The second component counts the
orchestrator RPC invocations performed (validate plus the two builds), so
that short-circuiting can be observed. -/
def SchemaValidator.validate (env : DiffEnv) (orchestrator : OrchestratorModel)
    (isInitial : Bool) (compare : Option (SchemaObject × Option SchemaObject))
    (baseSchema : Option String) (before after : List SchemaObject)
    (acceptBreakingChanges : Bool) : ValidationResult × Nat :=
  let afterWithBase := withBase baseSchema after
  let areIdentical :=
    match compare with
    | some (incoming, some existing) => hashSchema env existing == hashSchema env incoming
    | _ => false
  if areIdentical then
    ({ isComposable := true, hasBreakingChanges := false, errors := [], changes := [] }, 0)
  else
    let compositionErrors := orchestrator.validate afterWithBase
    if isInitial then
      ({ isComposable := compositionErrors.isEmpty, hasBreakingChanges := false,
         errors := compositionErrors, changes := [] }, 1)
    else
      match comparedChanges env orchestrator before after with
      | .ok changes =>
        let hasBreaking := changes.any fun c => c.criticality == Criticality.Breaking
        if hasBreaking then
          if acceptBreakingChanges then
            ({ isComposable := compositionErrors.isEmpty, hasBreakingChanges := false,
               errors := compositionErrors, changes := changes }, 3)
          else
            ({ isComposable := compositionErrors.isEmpty, hasBreakingChanges := true,
               errors := compositionErrors ++
                 (changes.filter fun c => c.criticality == Criticality.Breaking).map
                   (fun c => { message := "Breaking Change: " ++ c.message, path := c.path }),
               changes := changes }, 3)
        else
          ({ isComposable := compositionErrors.isEmpty, hasBreakingChanges := false,
             errors := compositionErrors, changes := changes }, 3)
      | .error e =>
        ({ isComposable := compositionErrors.isEmpty, hasBreakingChanges := false,
           errors := compositionErrors ++
             [{ message := "Failed to compare schemas: " ++ e, path := none }],
           changes := [] }, 3)

/-! ## Project-type capabilities (CompositeModel private helpers) -/

def supportsMetadata (project : Project) : Bool :=
  project.type != ProjectType.FEDERATION

def supportsBaseSchema (project : Project) : Bool :=
  project.type != ProjectType.FEDERATION

def supportsSupergraph (project : Project) : Bool :=
  project.type == ProjectType.FEDERATION

def requiresServiceUrl (project : Project) : Bool :=
  project.type == ProjectType.FEDERATION

/-! ## Inputs of the coordinator (schema-publisher.ts) -/

structure PublishInput where
  organization : String
  project : String
  target : String
  service : Option String
  url : Option String
  sdl : String
  author : String
  commit : String
  force : Option Bool
  experimental_acceptBreakingChanges : Option Bool
  metadata : Option String
  github : Bool
  checksum : String
deriving Repr, DecidableEq

structure CheckInputModel where
  organization : String
  project : String
  target : String
  service : Option String
  sdl : String
  github : Bool
deriving Repr, DecidableEq

structure DeleteInputModel where
  organization : String
  project : String
  target : String
  serviceName : String
  force : Option Bool
deriving Repr, DecidableEq

inductive Conclusion
  | Publish
  | Reject
  | Neutral
deriving Repr, DecidableEq

/-- Drop leading whitespace characters. -/
def dropLeadingWhitespace : List Char → List Char
  | [] => []
  | c :: cs => if c.isWhitespace then dropLeadingWhitespace cs else c :: cs

/-- `String.prototype.trim`: drop leading and trailing whitespace (kernel
reducible, unlike `String.trim`). -/
def trimModel (s : String) : String :=
  { data := (dropLeadingWhitespace (dropLeadingWhitespace s.data).reverse).reverse }

/-! ## CompositeModel (models/composite.ts) -/

structure CheckOutput where
  validationResult : ValidationResult
  orchestratorCalls : Nat
  isInitial : Bool
  previousService : Option CompositeSchema
  schemasBefore : List CompositeSchema
  schemasAfter : List CompositeSchema
deriving Repr, DecidableEq

/-- `CompositeModel.check`.  `storedBaseSchema` is the target base schema the
`SchemaManager` would fetch; `now` is `Date.now()`; an `.error` is a thrown
exception (zod parse failure). -/
def CompositeModel.check (env : DiffEnv) (federation stitching : OrchestratorModel)
    (storedBaseSchema : Option String) (now : Nat) (project : Project)
    (acceptBreakingChanges : Bool) (service sdl targetSel : String)
    (currentSchemas : List Schema) : Except String CheckOutput :=
  let orchestrator := if project.type == ProjectType.FEDERATION then federation else stitching
  match ensureCompositeSchemas currentSchemas with
  | .error e => .error e
  | .ok schemas =>
    let action :=
      if serviceExists schemas service then CompositeAction.MODIFY else CompositeAction.ADD
    let incoming : CompositeSchema :=
      { id := temp, author := temp, commit := temp, target := targetSel, date := now,
        sdl := sdl, service_name := service, service_url := some temp,
        action := action, metadata := none }
    let baseSchema := if supportsBaseSchema project then storedBaseSchema else none
    let swapped := swapServices schemas incoming
    let afterSchemas := swapped.1
    let existing := swapped.2
    let isInitial := schemas.isEmpty
    let vr := SchemaValidator.validate env orchestrator isInitial
      (some (createSchemaObject incoming, existing.map createSchemaObject))
      baseSchema (schemas.map createSchemaObject) (afterSchemas.map createSchemaObject)
      acceptBreakingChanges
    .ok { validationResult := vr.1, orchestratorCalls := vr.2, isInitial := isInitial,
          previousService := existing, schemasBefore := schemas, schemasAfter := afterSchemas }

structure PublishComputation where
  validationResult : ValidationResult
  isInitial : Bool
  previousService : Option CompositeSchema
  incoming : CompositeSchema
  schemasBefore : List CompositeSchema
  schemasAfter : List CompositeSchema
  hasNewUrl : Bool
  hasSchemaChanges : Bool
  hasErrors : Bool
  isForced : Bool
  hasDifferentChecksum : Bool
  isModified : Bool
deriving Repr, DecidableEq

inductive PublishStage
  | missingServiceName (message : String)
  | missingServiceUrl (message : String)
  | threw (message : String)
  | ready (pc : PublishComputation)
deriving Repr, DecidableEq

/-- The input-validation, check and modification-detection prelude of
`CompositeModel.publish`, up to (but not including) the conclusion. -/
def CompositeModel.publishStage (env : DiffEnv) (federation stitching : OrchestratorModel)
    (storedBaseSchema : Option String) (now : Nat) (input : PublishInput)
    (project : Project) (target : Target) (currentSchemas : List Schema)
    (version : Option String) : PublishStage :=
  let nameMessage :=
    "Can not publish schema for a \x27" ++ project.type.toLowerString ++
    "\x27 project without a service name."
  let urlMessage :=
    "Can not publish schema for a \x27" ++ project.type.toLowerString ++
    "\x27 project without a service url."
  match input.service with
  | none => .missingServiceName nameMessage
  | some serviceName =>
    if trimModel serviceName = "" then .missingServiceName nameMessage
    else if requiresServiceUrl project &&
        (match input.url with
         | none => true
         | some u => trimModel u == "") then
      .missingServiceUrl urlMessage
    else
      match CompositeModel.check env federation stitching storedBaseSchema now project
          (input.experimental_acceptBreakingChanges == some true ||
            !project.isUsingLegacyRegistryModel)
          serviceName input.sdl input.target currentSchemas with
      | .error e => .threw e
      | .ok co =>
        let previousService := co.previousService
        let incoming : CompositeSchema :=
          { action := if previousService.isSome then CompositeAction.MODIFY else CompositeAction.ADD,
            id := temp, author := input.author, sdl := input.sdl,
            service_name := serviceName, service_url := input.url,
            commit := input.commit, target := target.id, date := now,
            metadata := if supportsMetadata project then input.metadata else none }
        let schemasBefore := co.schemasBefore
        let schemasAfter := co.schemasAfter.map fun s => if s.id == incoming.id then incoming else s
        let vr := co.validationResult
        let hasNewUrl := version.isSome &&
          (match previousService with
           | some prev => prev.service_url != incoming.service_url
           | none => false)
        let hasSchemaChanges := !vr.changes.isEmpty
        let hasErrors := !vr.errors.isEmpty
        let isForced := input.force == some true
        let hasDifferentChecksum :=
          if version.isSome && previousService.isSome then
            joinedChecksums env schemasBefore != joinedChecksums env schemasAfter
          else false
        let isModified := hasNewUrl || hasSchemaChanges || hasErrors || hasDifferentChecksum
        .ready { validationResult := vr, isInitial := co.isInitial,
                 previousService := previousService, incoming := incoming,
                 schemasBefore := schemasBefore, schemasAfter := schemasAfter,
                 hasNewUrl := hasNewUrl, hasSchemaChanges := hasSchemaChanges,
                 hasErrors := hasErrors, isForced := isForced,
                 hasDifferentChecksum := hasDifferentChecksum, isModified := isModified }

structure CdnBundle where
  schemas : List CompositeSchema
  supergraph : Option String
deriving Repr, DecidableEq

inductive CompositePublishResult
  | missingServiceName (message : String)
  | missingServiceUrl (message : String)
  | threw (message : String)
  | neutral (valid : Bool) (isInitial : Bool) (isModified : Bool)
  | concluded (conclusion : Conclusion) (isComposable : Bool)
      (changes : List SchemaChange) (errors : List SchemaError) (updates : List String)
      (schemaBefore : Option CompositeSchema) (schemaAfter : CompositeSchema)
      (schemasBefore schemasAfter : List CompositeSchema)
      (cdn : Option CdnBundle) (isInitial : Bool)
deriving Repr, DecidableEq

def showUrl : Option String → String
  | some u => u
  | none => "null"

/-- `CompositeModel.publish`. -/
def CompositeModel.publish (env : DiffEnv) (federation stitching : OrchestratorModel)
    (storedBaseSchema : Option String) (now : Nat) (input : PublishInput)
    (project : Project) (target : Target) (currentSchemas : List Schema)
    (version : Option String) : CompositePublishResult :=
  let orchestrator := if project.type == ProjectType.FEDERATION then federation else stitching
  match CompositeModel.publishStage env federation stitching storedBaseSchema now input
      project target currentSchemas version with
  | .missingServiceName m => .missingServiceName m
  | .missingServiceUrl m => .missingServiceUrl m
  | .threw m => .threw m
  | .ready pc =>
    if !pc.isModified && !pc.isInitial then
      .neutral true pc.isInitial pc.isModified
    else
      let updates :=
        if pc.hasNewUrl then
          ["Updated: New service url: " ++ showUrl pc.incoming.service_url ++
            " (previously: " ++
            showUrl (match pc.previousService with
                     | some prev => prev.service_url
                     | none => none) ++ ")"]
        else []
      let schemaObjectsAfter := pc.schemasAfter.map createSchemaObject
      if project.isUsingLegacyRegistryModel then
        let valid := pc.validationResult.isComposable && !pc.validationResult.hasBreakingChanges
        let conclusion := if valid || pc.isForced then Conclusion.Publish else Conclusion.Reject
        .concluded conclusion valid pc.validationResult.changes pc.validationResult.errors
          updates pc.previousService pc.incoming pc.schemasBefore pc.schemasAfter
          (if valid then
            some { schemas := pc.schemasAfter,
                   supergraph :=
                     if supportsSupergraph project then
                       orchestrator.supergraph schemaObjectsAfter
                     else none }
           else none)
          pc.isInitial
      else
        let conclusion :=
          if pc.validationResult.isComposable then Conclusion.Publish else Conclusion.Reject
        .concluded conclusion pc.validationResult.isComposable pc.validationResult.changes
          pc.validationResult.errors updates pc.previousService pc.incoming
          pc.schemasBefore pc.schemasAfter
          (if conclusion == Conclusion.Publish then
            some { schemas := pc.schemasAfter,
                   supergraph :=
                     if supportsSupergraph project then
                       orchestrator.supergraph schemaObjectsAfter
                     else none }
           else none)
          pc.isInitial

/-! ## SingleModel (models/single.ts) -/

structure SingleCheckOutput where
  validationResult : ValidationResult
  orchestratorCalls : Nat
  isInitial : Bool
  schemaBefore : Option SingleSchema
deriving Repr, DecidableEq

/-- `SingleModel.check`; an `.error` is a thrown exception (more than one
current schema, a schema with no SDL, or a zod parse failure). -/
def SingleModel.check (env : DiffEnv) (orchestrator : OrchestratorModel)
    (storedBaseSchema : Option String) (now : Nat) (acceptBreakingChanges : Bool)
    (sdl targetSel : String) (currentSchemas : List Schema) :
    Except String SingleCheckOutput :=
  if currentSchemas.length > 1 then
    .error "Single-schema project can only have a single schema"
  else
    let existingE : Except String (Option SingleSchema) :=
      match currentSchemas with
      | [] => .ok none
      | .single s :: _ => .ok (some s)
      | .deleted _ :: _ => .error "Schema does not have SDL"
      | .composite _ :: _ => .error "SingleSchemaModel.parse failed: not a single schema"
    match existingE with
    | .error e => .error e
    | .ok existing =>
      let existingObject := existing.map createSchemaObjectSingle
      let incoming : SingleSchema :=
        { id := temp, author := temp, commit := temp, target := targetSel,
          date := now, sdl := sdl, metadata := none }
      let incomingObject := createSchemaObjectSingle incoming
      let isInitial := existing.isNone
      let vr := SchemaValidator.validate env orchestrator isInitial
        (some (incomingObject, existingObject)) storedBaseSchema
        (match existingObject with
         | some o => [o]
         | none => [])
        [incomingObject] acceptBreakingChanges
      .ok { validationResult := vr.1, orchestratorCalls := vr.2,
            isInitial := isInitial, schemaBefore := existing }

structure SinglePublishComputation where
  validationResult : ValidationResult
  isInitial : Bool
  schemaBefore : Option SingleSchema
  incoming : SingleSchema
  hasNewUrl : Bool
  hasSchemaChanges : Bool
  hasErrors : Bool
  isForced : Bool
  hasDifferentChecksum : Bool
  isModified : Bool
deriving Repr, DecidableEq

inductive SinglePublishStage
  | threw (message : String)
  | ready (pc : SinglePublishComputation)
deriving Repr, DecidableEq

/-- The check and modification-detection prelude of `SingleModel.publish`. -/
def SingleModel.publishStage (env : DiffEnv) (orchestrator : OrchestratorModel)
    (storedBaseSchema : Option String) (now : Nat) (input : PublishInput)
    (project : Project) (target : Target) (currentSchemas : List Schema)
    (version : Option String) : SinglePublishStage :=
  match SingleModel.check env orchestrator storedBaseSchema now
      (input.experimental_acceptBreakingChanges == some true ||
        !project.isUsingLegacyRegistryModel)
      input.sdl input.target currentSchemas with
  | .error e => .threw e
  | .ok co =>
    let incoming : SingleSchema :=
      { id := temp, author := input.author, sdl := input.sdl, commit := input.commit,
        target := target.id, date := now, metadata := input.metadata }
    let vr := co.validationResult
    let hasNewUrl := false
    let hasSchemaChanges := !vr.changes.isEmpty
    let hasErrors := !vr.errors.isEmpty
    let isForced := input.force == some true
    let hasDifferentChecksum := version.isSome &&
      (match co.schemaBefore with
       | some before => createChecksumSingle env before != createChecksumSingle env incoming
       | none => false)
    let isModified := hasNewUrl || hasSchemaChanges || hasErrors || hasDifferentChecksum
    .ready { validationResult := vr, isInitial := co.isInitial,
             schemaBefore := co.schemaBefore, incoming := incoming,
             hasNewUrl := hasNewUrl, hasSchemaChanges := hasSchemaChanges,
             hasErrors := hasErrors, isForced := isForced,
             hasDifferentChecksum := hasDifferentChecksum, isModified := isModified }

structure SingleCdnBundle where
  schemas : List SingleSchema
  supergraph : Option String
deriving Repr, DecidableEq

inductive SinglePublishResult
  | threw (message : String)
  | neutral (valid : Bool) (isComposable : Bool) (isInitial : Bool) (isModified : Bool)
  | concluded (conclusion : Conclusion) (isComposable : Bool)
      (changes : List SchemaChange) (errors : List SchemaError) (updates : List String)
      (schemaBefore : Option SingleSchema) (schemaAfter : SingleSchema)
      (cdn : Option SingleCdnBundle) (isInitial : Bool)
deriving Repr, DecidableEq

/-- `SingleModel.publish`. -/
def SingleModel.publish (env : DiffEnv) (orchestrator : OrchestratorModel)
    (storedBaseSchema : Option String) (now : Nat) (input : PublishInput)
    (project : Project) (target : Target) (currentSchemas : List Schema)
    (version : Option String) : SinglePublishResult :=
  match SingleModel.publishStage env orchestrator storedBaseSchema now input project
      target currentSchemas version with
  | .threw m => .threw m
  | .ready pc =>
    if !pc.isModified && !pc.isInitial then
      .neutral pc.validationResult.isComposable pc.validationResult.isComposable
        pc.isInitial pc.isModified
    else if project.isUsingLegacyRegistryModel then
      let valid := pc.validationResult.isComposable && !pc.validationResult.hasBreakingChanges
      let conclusion := if valid || pc.isForced then Conclusion.Publish else Conclusion.Reject
      .concluded conclusion valid pc.validationResult.changes pc.validationResult.errors
        [] pc.schemaBefore pc.incoming
        (if valid then some { schemas := [pc.incoming], supergraph := none } else none)
        pc.isInitial
    else
      let conclusion :=
        if pc.validationResult.isComposable then Conclusion.Publish else Conclusion.Reject
      .concluded conclusion pc.validationResult.isComposable pc.validationResult.changes
        pc.validationResult.errors [] pc.schemaBefore pc.incoming
        (if conclusion == Conclusion.Publish then
          some { schemas := [pc.incoming], supergraph := none }
         else none)
        pc.isInitial

/-- `SingleModel.delete` unconditionally throws. -/
def SingleModel.delete (_ : Project) (_ : DeleteInputModel) (_ : List Schema) :
    Except String Unit :=
  .error "Deleting schemas is not supported for single-schema projects"

/-! ## CompositeModel.delete -/

inductive CompositeDeleteResult
  | notFound (errors : List SchemaError)
  | decided (conclusion : Conclusion) (isComposable : Bool) (hasBreakingChanges : Bool)
      (errors : List SchemaError) (service : CompositeSchema) (baseSchema : Option String)
deriving Repr, DecidableEq

/-- `CompositeModel.delete`. -/
def CompositeModel.delete (env : DiffEnv) (federation stitching : OrchestratorModel)
    (storedBaseSchema : Option String) (input : DeleteInputModel) (project : Project)
    (currentSchemas : List Schema) : CompositeDeleteResult :=
  let serviceName := input.serviceName
  let allActiveServices := filterAddedOrModified currentSchemas
  match allActiveServices.find? fun s => s.service_name == serviceName with
  | none =>
    .notFound [{ message := "Service \x27" ++ serviceName ++ "\x27 not found.", path := none }]
  | some serviceToDelete =>
    let isForced := input.force == some true
    let futureServices := allActiveServices.filter fun service => service.id != serviceToDelete.id
    let orchestrator := if project.type == ProjectType.FEDERATION then federation else stitching
    let baseSchema := if supportsBaseSchema project then storedBaseSchema else none
    let vr := SchemaValidator.validate env orchestrator false none baseSchema
      (allActiveServices.map createSchemaObject) (futureServices.map createSchemaObject)
      isForced
    .decided
      (if isForced || (vr.1.isComposable && !vr.1.hasBreakingChanges) then
        Conclusion.Publish
       else Conclusion.Reject)
      vr.1.isComposable vr.1.hasBreakingChanges vr.1.errors serviceToDelete baseSchema

/-! ## SchemaPublisher (coordinator) with an explicit effect trace -/

inductive Effect
  | storageCompleteGetStartedStep (step : String)
  | storageCreateVersion
  | storageDeleteSchema
  | cdnPublish (resourceType : String)
  | idempotencyAcquire (identifier : String)
  | githubCheckRun
deriving Repr, DecidableEq

/-- Whether an effect writes to persistent storage (the database behind the
`Storage` provider). -/
def Effect.isStorageWrite : Effect → Bool
  | .storageCompleteGetStartedStep _ => true
  | .storageCreateVersion => true
  | .storageDeleteSchema => true
  | _ => false

/-- Whether an effect writes to the version store proper (actions, versions
and live-set edges). -/
def Effect.isVersionStoreWrite : Effect → Bool
  | .storageCreateVersion => true
  | .storageDeleteSchema => true
  | _ => false

def Effect.isCdnPublish : Effect → Bool
  | .cdnPublish _ => true
  | _ => false

def Effect.isIdempotencyAcquire : Effect → Bool
  | .idempotencyAcquire _ => true
  | _ => false

inductive PublisherCheckResult
  | threw (message : String)
  | githubResult (success : Bool) (message : String)
  | checked (isComposable : Bool) (hasBreakingChanges : Bool)
      (errors : List SchemaError) (changes : List SchemaChange)
      (valid : Bool) (initial : Bool)
deriving Repr, DecidableEq

/-- `SchemaPublisher.check`: authorization and the parallel loads are reads;
the one storage write is `completeGetStartedCheck` (marking the get-started
`checkingSchema` step), performed before the model dispatch.  The effect
trace is reported even when the dispatch throws. -/
def SchemaPublisher.check (env : DiffEnv)
    (federation stitching singleOrchestrator : OrchestratorModel)
    (storedBaseSchema : Option String) (now : Nat) (project : Project)
    (latestSchemas : List Schema) (input : CheckInputModel) :
    PublisherCheckResult × List Effect :=
  let effects := [Effect.storageCompleteGetStartedStep "checkingSchema"]
  let dispatch : Except String (ValidationResult × Bool) :=
    if project.type == ProjectType.FEDERATION || project.type == ProjectType.STITCHING then
      match CompositeModel.check env federation stitching storedBaseSchema now project
          false (input.service.getD "") input.sdl input.target latestSchemas with
      | .error e => .error e
      | .ok co => .ok (co.validationResult, co.isInitial)
    else if project.type == ProjectType.SINGLE then
      match SingleModel.check env singleOrchestrator storedBaseSchema now false
          input.sdl input.target latestSchemas with
      | .error e => .error e
      | .ok co => .ok (co.validationResult, co.isInitial)
    else
      .error ("Not implemented: " ++ project.type.asString)
  match dispatch with
  | .error e => (.threw e, effects)
  | .ok (vr, isInitial) =>
    if input.github then
      match project.gitRepository with
      | none => (.githubResult false "Git repository is not configured for this project", effects)
      | some _ => (.githubResult true "Check-run created", effects ++ [Effect.githubCheckRun])
    else
      (.checked vr.isComposable vr.hasBreakingChanges vr.errors vr.changes
        (vr.isComposable && !vr.hasBreakingChanges) isInitial, effects)

inductive PublisherDeleteResult
  | threw (message : String)
  | errorsResult (errors : List SchemaError)
  | okResult (service : CompositeSchema)
deriving Repr, DecidableEq

/-- `SchemaPublisher.delete`: project-type and registry-model gates, then the
composite model; a `Publish` conclusion leads to the `deleteSchema` storage
write. -/
def SchemaPublisher.delete (env : DiffEnv) (federation stitching : OrchestratorModel)
    (storedBaseSchema : Option String) (project : Project) (latestSchemas : List Schema)
    (input : DeleteInputModel) : PublisherDeleteResult × List Effect :=
  if !(project.type == ProjectType.FEDERATION || project.type == ProjectType.STITCHING) then
    (.threw ("Deleting schemas is not available for " ++ project.type.asString ++
      "-type projects"), [])
  else if project.isUsingLegacyRegistryModel then
    (.threw "Deleting schemas is not available for the legacy registry model", [])
  else
    match CompositeModel.delete env federation stitching storedBaseSchema input project
        latestSchemas with
    | .notFound errs => (.errorsResult errs, [])
    | .decided conclusion _ _ errs service _ =>
      if conclusion == Conclusion.Reject then (.errorsResult errs, [])
      else (.okResult service, [Effect.storageDeleteSchema])

inductive PublishResponse
  | missingService (message : String)
  | missingUrl (message : String)
  | threw (message : String)
  | githubResult (success : Bool)
  | published (initial : Bool) (valid : Bool) (isComposable : Bool)
      (errors : List SchemaError) (changes : List SchemaChange)
  | publishError (isComposable : Bool) (errors : List SchemaError)
      (changes : List SchemaChange)
deriving Repr, DecidableEq

/-- The CDN fan-out of `publishNewVersion` (schema always, metadata when any
schema carries it, supergraph when present). -/
def cdnEffectsOf (schemas : List CompositeSchema) (supergraph : Option String) : List Effect :=
  [Effect.cdnPublish "schema"] ++
  (if schemas.any (fun s => s.metadata.isSome) then [Effect.cdnPublish "metadata"] else []) ++
  (match supergraph with
   | some _ => [Effect.cdnPublish "supergraph"]
   | none => [])

def cdnEffectsOfSingle (schemas : List SingleSchema) : List Effect :=
  [Effect.cdnPublish "schema"] ++
  (if schemas.any (fun s => s.metadata.isSome) then [Effect.cdnPublish "metadata"] else [])

/-- The GitHub check-run reply of `createPublishCheckRun` (the external call
is assumed to succeed when a repository is configured). -/
def githubPublishReply (project : Project) : PublishResponse :=
  match project.gitRepository with
  | none => .githubResult false
  | some _ => .githubResult true

/-- `SchemaPublisher.internalPublish`: the get-started write happens before
the model dispatch; a `Publish` conclusion triggers `createVersion` and the
best-effort CDN fan-out; `Neutral` and `Reject` write nothing further. -/
def SchemaPublisher.internalPublish (env : DiffEnv)
    (federation stitching singleOrchestrator : OrchestratorModel)
    (storedBaseSchema : Option String) (now : Nat) (project : Project) (target : Target)
    (latestSchemas : List Schema) (version : Option String) (input : PublishInput) :
    PublishResponse × List Effect :=
  let base := [Effect.storageCompleteGetStartedStep "publishingSchema"]
  if project.type == ProjectType.FEDERATION || project.type == ProjectType.STITCHING then
    match CompositeModel.publish env federation stitching storedBaseSchema now input
        project target latestSchemas version with
    | .missingServiceName m =>
      if input.github then (githubPublishReply project, base ++ [Effect.githubCheckRun])
      else (.missingService m, base)
    | .missingServiceUrl m =>
      if input.github then (githubPublishReply project, base ++ [Effect.githubCheckRun])
      else (.missingUrl m, base)
    | .threw m => (.threw m, base)
    | .neutral _ isInitial _ =>
      if input.github then (githubPublishReply project, base ++ [Effect.githubCheckRun])
      else (.published isInitial true true [] [], base)
    | .concluded conclusion isComposable changes errors _ _ _ _ _ cdn isInitial =>
      let effects :=
        if conclusion == Conclusion.Publish then
          base ++ [Effect.storageCreateVersion] ++
          (match cdn with
           | some bundle => cdnEffectsOf bundle.schemas bundle.supergraph
           | none => [])
        else base
      if input.github then (githubPublishReply project, effects ++ [Effect.githubCheckRun])
      else if conclusion == Conclusion.Publish then
        (.published isInitial isComposable isComposable errors changes, effects)
      else
        (.publishError isComposable errors changes, effects)
  else if project.type == ProjectType.SINGLE then
    match SingleModel.publish env singleOrchestrator storedBaseSchema now input project
        target latestSchemas version with
    | .threw m => (.threw m, base)
    | .neutral _ _ isInitial _ =>
      if input.github then (githubPublishReply project, base ++ [Effect.githubCheckRun])
      else (.published isInitial true true [] [], base)
    | .concluded conclusion isComposable changes errors _ _ _ cdn isInitial =>
      let effects :=
        if conclusion == Conclusion.Publish then
          base ++ [Effect.storageCreateVersion] ++
          (match cdn with
           | some bundle => cdnEffectsOfSingle bundle.schemas
           | none => [])
        else base
      if input.github then (githubPublishReply project, effects ++ [Effect.githubCheckRun])
      else if conclusion == Conclusion.Publish then
        (.published isInitial isComposable isComposable errors changes, effects)
      else
        (.publishError isComposable errors changes, effects)
  else
    (.threw ("Not implemented: " ++ project.type.asString), base)

/-! ## Idempotent runner (shared/providers/idempotent-runner, not under src/) -/

structure IdemEntry (R : Type) where
  identifier : String
  storedAt : Nat
  result : R
deriving Repr, DecidableEq

/-- Modelled from the spec: the `IdempotentRunner` (its implementation is not
under src/; §4.8) keeps a shared key-value store with atomic acquire-or-wait
semantics: a caller whose identifier has an entry stored within the TTL
window observes that entry's serialized result without executing; otherwise
the executor runs once and its result is cached for the TTL.  Logical time
replaces wall-clock time.  The third component of the result records whether
this call executed the executor. -/
def IdempotentRunner.run {R : Type} (ttl now : Nat) (identifier : String) (executor : R)
    (entries : List (IdemEntry R)) : R × List (IdemEntry R) × Bool :=
  match entries.find? fun e => e.identifier == identifier && decide (now ≤ e.storedAt + ttl) with
  | some e => (e.result, entries, false)
  | none =>
    (executor, { identifier := identifier, storedAt := now, result := executor } :: entries, true)

/-- The idempotency identifier `SchemaPublisher.publish` passes to the
runner. -/
def publishIdentifier (checksum : String) : String :=
  "schema:publish:" ++ checksum

/-! ## SchemaManager.createVersion (schema-manager.ts) -/

/-- JavaScript truthiness of an optional string (`null`/`undefined` and the
empty string are falsy). -/
def jsTruthyOptStr : Option String → Bool
  | some s => s != ""
  | none => false

/-- The `schema` record handed to `storage.createVersion`. -/
structure CreateVersionStoredSchema where
  sdl : String
  serviceName : Option String
  commit : String
  author : String
  serviceUrl : Option String
  metadata : Option String
  base_schema : Option String
deriving Repr, DecidableEq

/-- `SchemaManager.createVersion`, projected to the stored schema record: on
the legacy registry model a truthy service name is lowercased before being
persisted. -/
def SchemaManager.createVersion (isUsingLegacyRegistryModel : Bool)
    (commit schema author : String) (service : Option String) (url : Option String)
    (base_schema metadata : Option String) : CreateVersionStoredSchema :=
  let service :=
    if isUsingLegacyRegistryModel && jsTruthyOptStr service then service.map String.toLower
    else service
  { sdl := schema, serviceName := service, commit := commit, author := author,
    serviceUrl := url, metadata := metadata, base_schema := base_schema }

/-! ## FederationOrchestrator (orchestrators/federation.ts) -/

/-- A GraphQL document definition, at the granularity `removeFederationSpec`
visits: schema definitions (with their directive names), directive, enum and
scalar type definitions (with their names), and everything else. -/
inductive GDefinition
  | schemaDef (directives : List String)
  | directiveDef (name : String)
  | enumDef (name : String)
  | scalarDef (name : String)
  | otherDef (tag : String)
deriving Repr, DecidableEq

abbrev GDocument := List GDefinition

def federationV1directives : List String :=
  ["join__graph", "join__field", "join__owner", "join__type", "core"]

def federationV1enums : List String :=
  ["join__Graph", "core__Purpose"]

def federationV1scalars : List String :=
  ["join__FieldSet"]

/-- `removeFederationSpec`: drop the Federation-injected directive, enum and
scalar definitions and clear all directives from schema definitions. -/
def removeFederationSpec (doc : GDocument) : GDocument :=
  doc.filterMap fun d =>
    match d with
    | .schemaDef _ => some (.schemaDef [])
    | .directiveDef n => if n ∈ federationV1directives then none else some d
    | .enumDef n => if n ∈ federationV1enums then none else some d
    | .scalarDef n => if n ∈ federationV1scalars then none else some d
    | .otherDef _ => some d

/-- Whether a definition is free of the Federation spec: a schema definition
with no directives, and no definition named after the injected spec. -/
def strippedOfFederationSpec (d : GDefinition) : Bool :=
  match d with
  | .schemaDef directives => directives.isEmpty
  | .directiveDef n => !federationV1directives.contains n
  | .enumDef n => !federationV1enums.contains n
  | .scalarDef n => !federationV1scalars.contains n
  | .otherDef _ => true

/-- The composition service reply to the `build` mutation; `raw` is modelled
in parsed form (`parse(result.raw)` is an external library call). -/
structure FedBuildServiceResult where
  raw : GDocument
  source : String
deriving Repr, DecidableEq

structure FedSchemaObject where
  document : GDocument
  source : String
deriving Repr, DecidableEq

/-- `FederationOrchestrator.build`: on the legacy registry model the service
reply is parsed and returned as-is; on the modern model the Federation spec
is stripped first.  A service failure is wrapped in a `SchemaBuildError`. -/
def FederationOrchestrator.build (serviceResult : Except String FedBuildServiceResult)
    (project : Project) : Except String FedSchemaObject :=
  match serviceResult with
  | .error e => .error ("SchemaBuildError: " ++ e)
  | .ok r =>
    if project.isUsingLegacyRegistryModel then
      .ok { document := r.raw, source := r.source }
    else
      .ok { document := removeFederationSpec r.raw, source := r.source }

/-- `FederationOrchestrator.supergraph`: the composition service supergraph
string is returned without post-processing. -/
def FederationOrchestrator.supergraph (serviceSupergraph : Option String)
    (_ : Project) : Option String :=
  serviceSupergraph

/-! ## Concrete fixtures used by witness theorems -/

def testEnv : DiffEnv :=
  { digest := fun s => s, diff := fun _ _ => .ok [] }

def failDiffEnv : DiffEnv :=
  { digest := fun s => s, diff := fun _ _ => .error "boom" }

def noopOrchestrator : OrchestratorModel :=
  { validate := fun _ => []
    build := fun _ => .ok { document := "", raw := "", source := "*", url := none }
    supergraph := fun _ => none }

def sampleComposite : CompositeSchema :=
  { id := "id1", author := "alice", date := 1, commit := "c1", target := "t",
    sdl := "type Query \x7b a: Int \x7d", service_name := "svc",
    service_url := some "http://svc", action := CompositeAction.ADD, metadata := none }

def federationProject : Project :=
  { id := "p", orgId := "o", type := ProjectType.FEDERATION,
    isUsingLegacyRegistryModel := false, gitRepository := none }

def legacyFederationProject : Project :=
  { id := "p", orgId := "o", type := ProjectType.FEDERATION,
    isUsingLegacyRegistryModel := true, gitRepository := none }

def singleProject : Project :=
  { id := "p", orgId := "o", type := ProjectType.SINGLE,
    isUsingLegacyRegistryModel := false, gitRepository := none }

def samplePublishInput : PublishInput :=
  { organization := "o", project := "p", target := "t", service := some "svc",
    url := some "http://svc", sdl := "type Query \x7b a: Int \x7d", author := "alice",
    commit := "c2", force := none, experimental_acceptBreakingChanges := none,
    metadata := none, github := false, checksum := "chk" }

def sampleCheckInput : CheckInputModel :=
  { organization := "o", project := "p", target := "t", service := none,
    sdl := "type Query \x7b a: Int \x7d", github := false }

def sampleDeleteInput : DeleteInputModel :=
  { organization := "o", project := "p", target := "t", serviceName := "svc",
    force := none }

/-! ## Claim theorems -/

/-- Claim C4: when compare information is present, the existing schema is
non-null and its hash equals the incoming hash, `SchemaValidator.validate`
returns exactly `{isComposable: true, hasBreakingChanges: false, errors: [],
changes: []}` without invoking the orchestrator (zero orchestrator calls),
whatever the stored composability status and all other inputs are. -/
theorem c4_validate_short_circuit (env : DiffEnv) (orchestrator : OrchestratorModel)
    (isInitial : Bool) (baseSchema : Option String) (before after : List SchemaObject)
    (acceptBreakingChanges : Bool) (incoming existing : SchemaObject)
    (h : env.digest existing.document = env.digest incoming.document) :
    SchemaValidator.validate env orchestrator isInitial (some (incoming, some existing))
      baseSchema before after acceptBreakingChanges =
      ({ isComposable := true, hasBreakingChanges := false, errors := [], changes := [] }, 0) := by
  simp [SchemaValidator.validate, hashSchema, h]

theorem c4_validate_short_circuit_witness :
    SchemaValidator.validate testEnv noopOrchestrator false
      (some (createSchemaObject sampleComposite, some (createSchemaObject sampleComposite)))
      none [] [] false =
      ({ isComposable := true, hasBreakingChanges := false, errors := [], changes := [] }, 0) :=
  c4_validate_short_circuit testEnv noopOrchestrator false none [] [] false
    (createSchemaObject sampleComposite) (createSchemaObject sampleComposite) rfl

/-- Claim C5: on a non-initial validation that does not take the
identical-hash short circuit, a failure raised while building the before and
after schemas or diffing them is converted into exactly one extra error
appended after the composition errors, whose message starts with
"Failed to compare schemas: "; the call still returns a `ValidationResult`
(the model is a total function, mirroring the try/catch), and
`isComposable` still equals the emptiness of the composition error list. -/
theorem c5_validate_compare_failure (env : DiffEnv) (orchestrator : OrchestratorModel)
    (compare : Option (SchemaObject × Option SchemaObject)) (baseSchema : Option String)
    (before after : List SchemaObject) (acceptBreakingChanges : Bool) (e : String)
    (hsc : (match compare with
            | some (incoming, some existing) =>
              hashSchema env existing == hashSchema env incoming
            | _ => false) = false)
    (hfail : comparedChanges env orchestrator before after = .error e) :
    SchemaValidator.validate env orchestrator false compare baseSchema before after
      acceptBreakingChanges =
      ({ isComposable := (orchestrator.validate (withBase baseSchema after)).isEmpty,
         hasBreakingChanges := false,
         errors := orchestrator.validate (withBase baseSchema after) ++
           [{ message := "Failed to compare schemas: " ++ e, path := none }],
         changes := [] }, 3) := by
  simp only [SchemaValidator.validate, hsc, hfail]
  simp

theorem c5_validate_compare_failure_witness :
    SchemaValidator.validate failDiffEnv noopOrchestrator false none none [] [] false =
      ({ isComposable := (noopOrchestrator.validate (withBase none [])).isEmpty,
         hasBreakingChanges := false,
         errors := noopOrchestrator.validate (withBase none []) ++
           [{ message := "Failed to compare schemas: " ++ "boom", path := none }],
         changes := [] }, 3) :=
  c5_validate_compare_failure failDiffEnv noopOrchestrator none none [] [] false "boom"
    rfl rfl

/-- Claim C10: `SchemaManager.createVersion` persists the lowercased service
name when the project uses the legacy registry model and the supplied name
is truthy (non-empty); on the modern model the supplied service name is
stored verbatim. -/
theorem c10_create_version_service_name (commit schema author : String)
    (url base_schema metadata : Option String) :
    (∀ s : String, s ≠ "" →
      (SchemaManager.createVersion true commit schema author (some s) url base_schema
        metadata).serviceName = some s.toLower) ∧
    (∀ service : Option String,
      (SchemaManager.createVersion false commit schema author service url base_schema
        metadata).serviceName = service) := by
  constructor
  · intro s hs
    simp [SchemaManager.createVersion, jsTruthyOptStr, hs]
  · intro service
    simp [SchemaManager.createVersion]

theorem c10_create_version_service_name_witness :
    (SchemaManager.createVersion true "c" "sdl" "alice" (some "MyService") none none
      none).serviceName = some "MyService".toLower :=
  (c10_create_version_service_name "c" "sdl" "alice" none none none).1 "MyService"
    (by decide)

/-- Claim C6: on a modern-model project, `FederationOrchestrator.build`
returns the composition service reply with the Federation-injected
definitions stripped — every remaining definition is free of the
`join__`/`core` spec and schema definitions carry no directives — while
`FederationOrchestrator.supergraph` returns the composition service
supergraph unchanged. -/
theorem c6_federation_strip (project : Project) (r : FedBuildServiceResult)
    (serviceSupergraph : Option String)
    (hmodern : project.isUsingLegacyRegistryModel = false) :
    FederationOrchestrator.build (.ok r) project =
      .ok { document := removeFederationSpec r.raw, source := r.source } ∧
    (∀ d ∈ (removeFederationSpec r.raw), strippedOfFederationSpec d = true) ∧
    FederationOrchestrator.supergraph serviceSupergraph project = serviceSupergraph := by
  refine ⟨by simp [FederationOrchestrator.build, hmodern], ?_, rfl⟩
  intro d hd
  simp only [removeFederationSpec, List.mem_filterMap] at hd
  obtain ⟨a, -, hfa⟩ := hd
  cases a with
  | schemaDef dirs =>
    simp only [Option.some_inj] at hfa
    subst hfa
    simp [strippedOfFederationSpec]
  | directiveDef n =>
    by_cases hn : n ∈ federationV1directives
    · simp [hn] at hfa
    · simp only [hn, if_false, Option.some_inj] at hfa
      subst hfa
      simp [strippedOfFederationSpec, hn]
  | enumDef n =>
    by_cases hn : n ∈ federationV1enums
    · simp [hn] at hfa
    · simp only [hn, if_false, Option.some_inj] at hfa
      subst hfa
      simp [strippedOfFederationSpec, hn]
  | scalarDef n =>
    by_cases hn : n ∈ federationV1scalars
    · simp [hn] at hfa
    · simp only [hn, if_false, Option.some_inj] at hfa
      subst hfa
      simp [strippedOfFederationSpec, hn]
  | otherDef t =>
    simp only [Option.some_inj] at hfa
    subst hfa
    simp [strippedOfFederationSpec]

theorem c6_federation_strip_witness :
    FederationOrchestrator.build
        (.ok { raw := [GDefinition.schemaDef ["join__graph"],
                       GDefinition.directiveDef "join__field",
                       GDefinition.enumDef "join__Graph",
                       GDefinition.scalarDef "join__FieldSet",
                       GDefinition.otherDef "Query"], source := "*" })
        federationProject =
      .ok { document := removeFederationSpec
              [GDefinition.schemaDef ["join__graph"],
               GDefinition.directiveDef "join__field",
               GDefinition.enumDef "join__Graph",
               GDefinition.scalarDef "join__FieldSet",
               GDefinition.otherDef "Query"], source := "*" } ∧
    (∀ d ∈ (removeFederationSpec
        [GDefinition.schemaDef ["join__graph"],
         GDefinition.directiveDef "join__field",
         GDefinition.enumDef "join__Graph",
         GDefinition.scalarDef "join__FieldSet",
         GDefinition.otherDef "Query"]), strippedOfFederationSpec d = true) ∧
    FederationOrchestrator.supergraph (some "supergraph sdl") federationProject =
      some "supergraph sdl" :=
  c6_federation_strip federationProject
    { raw := [GDefinition.schemaDef ["join__graph"],
              GDefinition.directiveDef "join__field",
              GDefinition.enumDef "join__Graph",
              GDefinition.scalarDef "join__FieldSet",
              GDefinition.otherDef "Query"], source := "*" }
    (some "supergraph sdl") rfl

/-- Claim C9: two publish invocations carrying the same checksum within the
60-second TTL share the idempotency identifier "schema:publish:" followed by
the checksum; the runner executes the internal publish exactly once (the
first call executes, the duplicate does not) and both callers observe the
same serialized outcome, effects — and hence versions written — included. -/
theorem c9_publish_idempotency (env : DiffEnv)
    (federation stitching singleOrchestrator : OrchestratorModel)
    (storedBaseSchema : Option String) (now : Nat) (project : Project) (target : Target)
    (latestSchemas : List Schema) (version : Option String) (input : PublishInput)
    (entries : List (IdemEntry (PublishResponse × List Effect))) (t1 t2 : Nat)
    (hfresh : ∀ e ∈ entries, e.identifier ≠ publishIdentifier input.checksum)
    (hwithin : t2 ≤ t1 + 60) :
    (IdempotentRunner.run 60 t1 (publishIdentifier input.checksum)
      (SchemaPublisher.internalPublish env federation stitching singleOrchestrator
        storedBaseSchema now project target latestSchemas version input)
      entries).2.2 = true ∧
    (IdempotentRunner.run 60 t2 (publishIdentifier input.checksum)
      (SchemaPublisher.internalPublish env federation stitching singleOrchestrator
        storedBaseSchema now project target latestSchemas version input)
      (IdempotentRunner.run 60 t1 (publishIdentifier input.checksum)
        (SchemaPublisher.internalPublish env federation stitching singleOrchestrator
          storedBaseSchema now project target latestSchemas version input)
        entries).2.1).2.2 = false ∧
    (IdempotentRunner.run 60 t2 (publishIdentifier input.checksum)
      (SchemaPublisher.internalPublish env federation stitching singleOrchestrator
        storedBaseSchema now project target latestSchemas version input)
      (IdempotentRunner.run 60 t1 (publishIdentifier input.checksum)
        (SchemaPublisher.internalPublish env federation stitching singleOrchestrator
          storedBaseSchema now project target latestSchemas version input)
        entries).2.1).1 =
    (IdempotentRunner.run 60 t1 (publishIdentifier input.checksum)
      (SchemaPublisher.internalPublish env federation stitching singleOrchestrator
        storedBaseSchema now project target latestSchemas version input)
      entries).1 := by
  have hnone : entries.find?
      (fun e => e.identifier == publishIdentifier input.checksum &&
        decide (t1 ≤ e.storedAt + 60)) = none := by
    apply List.find?_eq_none.mpr
    intro e he
    have := hfresh e he
    simp [this]
  constructor
  · simp [IdempotentRunner.run, hnone]
  · constructor
    · simp [IdempotentRunner.run, hnone, List.find?_cons, hwithin]
    · simp [IdempotentRunner.run, hnone, List.find?_cons, hwithin]

theorem c9_publish_idempotency_witness :
    (IdempotentRunner.run 60 0 (publishIdentifier samplePublishInput.checksum)
      (SchemaPublisher.internalPublish testEnv noopOrchestrator noopOrchestrator
        noopOrchestrator none 0 federationProject { id := "t" } [] none samplePublishInput)
      []).2.2 = true ∧
    (IdempotentRunner.run 60 30 (publishIdentifier samplePublishInput.checksum)
      (SchemaPublisher.internalPublish testEnv noopOrchestrator noopOrchestrator
        noopOrchestrator none 0 federationProject { id := "t" } [] none samplePublishInput)
      (IdempotentRunner.run 60 0 (publishIdentifier samplePublishInput.checksum)
        (SchemaPublisher.internalPublish testEnv noopOrchestrator noopOrchestrator
          noopOrchestrator none 0 federationProject { id := "t" } [] none samplePublishInput)
        []).2.1).2.2 = false ∧
    (IdempotentRunner.run 60 30 (publishIdentifier samplePublishInput.checksum)
      (SchemaPublisher.internalPublish testEnv noopOrchestrator noopOrchestrator
        noopOrchestrator none 0 federationProject { id := "t" } [] none samplePublishInput)
      (IdempotentRunner.run 60 0 (publishIdentifier samplePublishInput.checksum)
        (SchemaPublisher.internalPublish testEnv noopOrchestrator noopOrchestrator
          noopOrchestrator none 0 federationProject { id := "t" } [] none samplePublishInput)
        []).2.1).1 =
    (IdempotentRunner.run 60 0 (publishIdentifier samplePublishInput.checksum)
      (SchemaPublisher.internalPublish testEnv noopOrchestrator noopOrchestrator
        noopOrchestrator none 0 federationProject { id := "t" } [] none samplePublishInput)
      []).1 :=
  c9_publish_idempotency testEnv noopOrchestrator noopOrchestrator noopOrchestrator
    none 0 federationProject { id := "t" } [] none samplePublishInput [] 0 30
    (by intro e he; cases he) (by decide)

/-- Claim C7 (amended): `SchemaPublisher.check` performs no version-store
write, creates no version, publishes nothing to the CDN and acquires no
idempotency key — the version store observes the same state before and
after — but it is not entirely free of persistent-storage writes: it always
marks the organization get-started "checkingSchema" step complete, a storage
write. -/
theorem c7_check_read_only_amended (env : DiffEnv)
    (federation stitching singleOrchestrator : OrchestratorModel)
    (storedBaseSchema : Option String) (now : Nat) (project : Project)
    (latestSchemas : List Schema) (input : CheckInputModel) :
    ((SchemaPublisher.check env federation stitching singleOrchestrator storedBaseSchema
      now project latestSchemas input).2.filter Effect.isVersionStoreWrite = []) ∧
    ((SchemaPublisher.check env federation stitching singleOrchestrator storedBaseSchema
      now project latestSchemas input).2.filter Effect.isCdnPublish = []) ∧
    ((SchemaPublisher.check env federation stitching singleOrchestrator storedBaseSchema
      now project latestSchemas input).2.filter Effect.isIdempotencyAcquire = []) ∧
    Effect.storageCompleteGetStartedStep "checkingSchema" ∈
      (SchemaPublisher.check env federation stitching singleOrchestrator storedBaseSchema
        now project latestSchemas input).2 := by
  have hshape :
      (SchemaPublisher.check env federation stitching singleOrchestrator storedBaseSchema
        now project latestSchemas input).2 =
        [Effect.storageCompleteGetStartedStep "checkingSchema"] ∨
      (SchemaPublisher.check env federation stitching singleOrchestrator storedBaseSchema
        now project latestSchemas input).2 =
        [Effect.storageCompleteGetStartedStep "checkingSchema", Effect.githubCheckRun] := by
    simp only [SchemaPublisher.check]
    split
    · simp
    · split
      · split <;> simp
      · simp
  rcases hshape with h | h <;> rw [h] <;> refine ⟨by rfl, by rfl, by rfl, by simp⟩

/-- Claim C7 counterexample: a concrete check invocation whose effect trace
does contain a persistent-storage write, refuting "no write to persistent
storage is performed". -/
theorem c7_check_writes_counterexample :
    ((SchemaPublisher.check testEnv noopOrchestrator noopOrchestrator noopOrchestrator
      none 0 singleProject [] sampleCheckInput).2.any Effect.isStorageWrite) = true := by
  rfl

/-- Claim C8 (amended): a delete request targeting a SINGLE-type project
always fails, but through `SchemaPublisher.delete` (the only dispatch path
for delete requests) the error message is "Deleting schemas is not available
for SINGLE-type projects"; the message "Deleting schemas is not supported
for single-schema projects" is raised only by `SingleModel.delete` itself,
which the publisher never reaches for SINGLE projects. -/
theorem c8_single_delete_amended (env : DiffEnv) (federation stitching : OrchestratorModel)
    (storedBaseSchema : Option String) (project : Project) (latestSchemas : List Schema)
    (input : DeleteInputModel) (p2 : Project) (i2 : DeleteInputModel) (cs2 : List Schema)
    (h : project.type = ProjectType.SINGLE) :
    (SchemaPublisher.delete env federation stitching storedBaseSchema project latestSchemas
      input).1 = .threw "Deleting schemas is not available for SINGLE-type projects" ∧
    SingleModel.delete p2 i2 cs2 =
      .error "Deleting schemas is not supported for single-schema projects" := by
  constructor
  · simp only [SchemaPublisher.delete, h]
    rfl
  · rfl

theorem c8_single_delete_amended_witness :
    (SchemaPublisher.delete testEnv noopOrchestrator noopOrchestrator none singleProject
      [] sampleDeleteInput).1 =
      .threw "Deleting schemas is not available for SINGLE-type projects" ∧
    SingleModel.delete singleProject sampleDeleteInput [] =
      .error "Deleting schemas is not supported for single-schema projects" :=
  c8_single_delete_amended testEnv noopOrchestrator noopOrchestrator none singleProject
    [] sampleDeleteInput singleProject sampleDeleteInput [] rfl

/-- Claim C8 counterexample: at a concrete SINGLE-type delete request the
operation fails, but with a message different from the one the claim
states. -/
theorem c8_single_delete_counterexample :
    (SchemaPublisher.delete testEnv noopOrchestrator noopOrchestrator none singleProject
      [] sampleDeleteInput).1 =
      .threw "Deleting schemas is not available for SINGLE-type projects" ∧
    "Deleting schemas is not available for SINGLE-type projects" ≠
      "Deleting schemas is not supported for single-schema projects" := by
  refine ⟨rfl, by decide⟩

/-- Claim C3: `CompositeModel.delete` rejects with exactly one
"Service '<name>' not found." error when no live ADD/MODIFY service carries
the requested name; otherwise it revalidates the prior live set against the
set minus that service with `acceptBreakingChanges = force` and concludes
`Publish` iff `force ∨ (isComposable ∧ ¬hasBreakingChanges)`, else
`Reject`. -/
theorem c3_composite_delete (env : DiffEnv) (federation stitching : OrchestratorModel)
    (storedBaseSchema : Option String) (input : DeleteInputModel) (project : Project)
    (currentSchemas : List Schema) :
    ((∀ s ∈ filterAddedOrModified currentSchemas, s.service_name ≠ input.serviceName) →
      CompositeModel.delete env federation stitching storedBaseSchema input project
        currentSchemas =
        .notFound [{ message := "Service \x27" ++ input.serviceName ++ "\x27 not found.",
                     path := none }]) ∧
    (∀ serviceToDelete,
      (filterAddedOrModified currentSchemas).find?
        (fun s => s.service_name == input.serviceName) = some serviceToDelete →
      CompositeModel.delete env federation stitching storedBaseSchema input project
        currentSchemas =
        .decided
          (if input.force == some true ||
              ((SchemaValidator.validate env
                  (if project.type == ProjectType.FEDERATION then federation else stitching)
                  false none
                  (if supportsBaseSchema project then storedBaseSchema else none)
                  ((filterAddedOrModified currentSchemas).map createSchemaObject)
                  (((filterAddedOrModified currentSchemas).filter
                    (fun s => s.id != serviceToDelete.id)).map createSchemaObject)
                  (input.force == some true)).1.isComposable &&
                !(SchemaValidator.validate env
                  (if project.type == ProjectType.FEDERATION then federation else stitching)
                  false none
                  (if supportsBaseSchema project then storedBaseSchema else none)
                  ((filterAddedOrModified currentSchemas).map createSchemaObject)
                  (((filterAddedOrModified currentSchemas).filter
                    (fun s => s.id != serviceToDelete.id)).map createSchemaObject)
                  (input.force == some true)).1.hasBreakingChanges) then
            Conclusion.Publish
           else Conclusion.Reject)
          (SchemaValidator.validate env
            (if project.type == ProjectType.FEDERATION then federation else stitching)
            false none
            (if supportsBaseSchema project then storedBaseSchema else none)
            ((filterAddedOrModified currentSchemas).map createSchemaObject)
            (((filterAddedOrModified currentSchemas).filter
              (fun s => s.id != serviceToDelete.id)).map createSchemaObject)
            (input.force == some true)).1.isComposable
          (SchemaValidator.validate env
            (if project.type == ProjectType.FEDERATION then federation else stitching)
            false none
            (if supportsBaseSchema project then storedBaseSchema else none)
            ((filterAddedOrModified currentSchemas).map createSchemaObject)
            (((filterAddedOrModified currentSchemas).filter
              (fun s => s.id != serviceToDelete.id)).map createSchemaObject)
            (input.force == some true)).1.hasBreakingChanges
          (SchemaValidator.validate env
            (if project.type == ProjectType.FEDERATION then federation else stitching)
            false none
            (if supportsBaseSchema project then storedBaseSchema else none)
            ((filterAddedOrModified currentSchemas).map createSchemaObject)
            (((filterAddedOrModified currentSchemas).filter
              (fun s => s.id != serviceToDelete.id)).map createSchemaObject)
            (input.force == some true)).1.errors
          serviceToDelete
          (if supportsBaseSchema project then storedBaseSchema else none) ∧
      (∀ isComposable hasBreakingChanges : Bool,
        ((if input.force == some true || (isComposable && !hasBreakingChanges) then
            Conclusion.Publish
          else Conclusion.Reject) = Conclusion.Publish ↔
          (input.force = some true ∨ (isComposable = true ∧ hasBreakingChanges = false))))) := by
  constructor
  · intro habsent
    have hnone : (filterAddedOrModified currentSchemas).find?
        (fun s => s.service_name == input.serviceName) = none := by
      apply List.find?_eq_none.mpr
      intro s hs
      have := habsent s hs
      simp [this]
    simp [CompositeModel.delete, hnone]
  · intro serviceToDelete hfind
    constructor
    · simp only [CompositeModel.delete, hfind]
    · intro isComposable hasBreakingChanges
      cases hf : input.force == some true with
      | true =>
        have hforce : input.force = some true := by simpa using hf
        simp [hf, hforce]
      | false =>
        have hforce : input.force ≠ some true := by simpa using hf
        cases hic : isComposable <;> cases hbc : hasBreakingChanges <;> simp [hf, hforce]

theorem c3_composite_delete_witness :
    ((∀ s ∈ filterAddedOrModified [Schema.composite sampleComposite],
        s.service_name ≠ "zzz") ∧
      CompositeModel.delete testEnv noopOrchestrator noopOrchestrator none
        { organization := "o", project := "p", target := "t", serviceName := "zzz",
          force := none } federationProject [Schema.composite sampleComposite] =
        .notFound [{ message := "Service \x27zzz\x27 not found.", path := none }]) ∧
    CompositeModel.delete testEnv noopOrchestrator noopOrchestrator none sampleDeleteInput
      federationProject [Schema.composite sampleComposite] =
      .decided Conclusion.Publish true false [] sampleComposite none :=
  ⟨⟨by decide,
    (c3_composite_delete testEnv noopOrchestrator noopOrchestrator none
      { organization := "o", project := "p", target := "t", serviceName := "zzz",
        force := none } federationProject [Schema.composite sampleComposite]).1
      (by decide)⟩,
   ((c3_composite_delete testEnv noopOrchestrator noopOrchestrator none sampleDeleteInput
      federationProject [Schema.composite sampleComposite]).2 sampleComposite rfl).1.trans
      (by rfl)⟩

/-- A ready composite publish stage records `isForced = (force === true)`. -/
theorem compositePublishStage_ready_isForced (env : DiffEnv)
    (federation stitching : OrchestratorModel) (storedBaseSchema : Option String)
    (now : Nat) (input : PublishInput) (project : Project) (target : Target)
    (currentSchemas : List Schema) (version : Option String) (pc : PublishComputation)
    (h : CompositeModel.publishStage env federation stitching storedBaseSchema now input
      project target currentSchemas version = .ready pc) :
    pc.isForced = (input.force == some true) := by
  simp only [CompositeModel.publishStage] at h
  cases hsvc : input.service with
  | none =>
    simp only [hsvc] at h
    exact absurd h (by simp)
  | some serviceName =>
    simp only [hsvc] at h
    split at h
    · exact absurd h (by simp)
    · split at h
      · exact absurd h (by simp)
      · split at h
        · exact absurd h (by simp)
        · cases h
          rfl

/-- A ready single publish stage records `isForced = (force === true)`. -/
theorem singlePublishStage_ready_isForced (env : DiffEnv)
    (orchestrator : OrchestratorModel) (storedBaseSchema : Option String) (now : Nat)
    (input : PublishInput) (project : Project) (target : Target)
    (currentSchemas : List Schema) (version : Option String)
    (pc : SinglePublishComputation)
    (h : SingleModel.publishStage env orchestrator storedBaseSchema now input project
      target currentSchemas version = .ready pc) :
    pc.isForced = (input.force == some true) := by
  simp only [SingleModel.publishStage] at h
  split at h
  · exact absurd h (by simp)
  · cases h
    rfl

/-- Claim C1: whenever a publish through `CompositeModel.publish` or
`SingleModel.publish` reaches a conclusion (neither a `Neutral` noop, a
missing-input error, nor a thrown exception), on a legacy-registry-model
project the conclusion is `Publish` iff `(isComposable ∧ ¬hasBreakingChanges)
∨ force = true`, else `Reject`; on a modern-model project it is `Publish` iff
the validation result's `isComposable`, regardless of breaking changes and of
`force`. -/
theorem c1_publish_conclusion (env : DiffEnv)
    (federation stitching singleOrchestrator : OrchestratorModel)
    (storedBaseSchema : Option String) (now : Nat) (input : PublishInput)
    (project : Project) (target : Target) (currentSchemas : List Schema)
    (version : Option String) :
    (∀ pc conclusion isComposable changes errors updates schemaBefore schemaAfter
        schemasBefore schemasAfter cdn isInitial,
      CompositeModel.publishStage env federation stitching storedBaseSchema now input
        project target currentSchemas version = .ready pc →
      CompositeModel.publish env federation stitching storedBaseSchema now input project
        target currentSchemas version =
        .concluded conclusion isComposable changes errors updates schemaBefore schemaAfter
          schemasBefore schemasAfter cdn isInitial →
      ((conclusion = Conclusion.Publish ∨ conclusion = Conclusion.Reject) ∧
       (project.isUsingLegacyRegistryModel = true →
         (conclusion = Conclusion.Publish ↔
           ((pc.validationResult.isComposable = true ∧
             pc.validationResult.hasBreakingChanges = false) ∨
            input.force = some true))) ∧
       (project.isUsingLegacyRegistryModel = false →
         (conclusion = Conclusion.Publish ↔
           pc.validationResult.isComposable = true)))) ∧
    (∀ pc conclusion isComposable changes errors updates schemaBefore schemaAfter cdn
        isInitial,
      SingleModel.publishStage env singleOrchestrator storedBaseSchema now input project
        target currentSchemas version = .ready pc →
      SingleModel.publish env singleOrchestrator storedBaseSchema now input project target
        currentSchemas version =
        .concluded conclusion isComposable changes errors updates schemaBefore schemaAfter
          cdn isInitial →
      ((conclusion = Conclusion.Publish ∨ conclusion = Conclusion.Reject) ∧
       (project.isUsingLegacyRegistryModel = true →
         (conclusion = Conclusion.Publish ↔
           ((pc.validationResult.isComposable = true ∧
             pc.validationResult.hasBreakingChanges = false) ∨
            input.force = some true))) ∧
       (project.isUsingLegacyRegistryModel = false →
         (conclusion = Conclusion.Publish ↔
           pc.validationResult.isComposable = true)))) := by
  constructor
  · intro pc conclusion isComposable changes errors updates schemaBefore schemaAfter
      schemasBefore schemasAfter cdn isInitial hstage hpub
    have hforced := compositePublishStage_ready_isForced env federation stitching
      storedBaseSchema now input project target currentSchemas version pc hstage
    simp only [CompositeModel.publish, hstage] at hpub
    by_cases hneutral : (!pc.isModified && !pc.isInitial) = true
    · rw [if_pos hneutral] at hpub
      exact absurd hpub (by simp)
    · rw [if_neg hneutral] at hpub
      by_cases hleg : project.isUsingLegacyRegistryModel = true
      · simp only [hleg, if_true] at hpub
        simp only [CompositePublishResult.concluded.injEq] at hpub
        obtain ⟨hc, -⟩ := hpub
        refine ⟨?_, fun _ => ?_, fun hmod => absurd hleg (by simp [hmod])⟩
        · rw [← hc]
          split <;> simp
        · rw [← hc, hforced]
          cases hic : pc.validationResult.isComposable <;>
            cases hbc : pc.validationResult.hasBreakingChanges <;>
            cases hf : input.force == some true <;>
            simp_all [beq_iff_eq, beq_eq_false_iff_ne] <;> simp [← hc]
      · simp only [Bool.not_eq_true] at hleg
        simp only [hleg, Bool.false_eq_true, if_false] at hpub
        simp only [CompositePublishResult.concluded.injEq] at hpub
        obtain ⟨hc, -⟩ := hpub
        refine ⟨?_, fun habs => absurd habs (by simp [hleg]), fun _ => ?_⟩
        · rw [← hc]
          split <;> simp
        · rw [← hc]
          cases hic : pc.validationResult.isComposable <;> simp
  · intro pc conclusion isComposable changes errors updates schemaBefore schemaAfter cdn
      isInitial hstage hpub
    have hforced := singlePublishStage_ready_isForced env singleOrchestrator
      storedBaseSchema now input project target currentSchemas version pc hstage
    simp only [SingleModel.publish, hstage] at hpub
    by_cases hneutral : (!pc.isModified && !pc.isInitial) = true
    · rw [if_pos hneutral] at hpub
      exact absurd hpub (by simp)
    · rw [if_neg hneutral] at hpub
      by_cases hleg : project.isUsingLegacyRegistryModel = true
      · simp only [hleg, if_true] at hpub
        simp only [SinglePublishResult.concluded.injEq] at hpub
        obtain ⟨hc, -⟩ := hpub
        refine ⟨?_, fun _ => ?_, fun hmod => absurd hleg (by simp [hmod])⟩
        · rw [← hc]
          split <;> simp
        · rw [← hc, hforced]
          cases hic : pc.validationResult.isComposable <;>
            cases hbc : pc.validationResult.hasBreakingChanges <;>
            cases hf : input.force == some true <;>
            simp_all [beq_iff_eq, beq_eq_false_iff_ne] <;> simp [← hc]
      · simp only [Bool.not_eq_true] at hleg
        simp only [hleg, Bool.false_eq_true, if_false] at hpub
        simp only [SinglePublishResult.concluded.injEq] at hpub
        obtain ⟨hc, -⟩ := hpub
        refine ⟨?_, fun habs => absurd habs (by simp [hleg]), fun _ => ?_⟩
        · rw [← hc]
          split <;> simp
        · rw [← hc]
          cases hic : pc.validationResult.isComposable <;> simp

def legacySingleProject : Project :=
  { id := "p", orgId := "o", type := ProjectType.SINGLE,
    isUsingLegacyRegistryModel := true, gitRepository := none }

def witnessIncoming : CompositeSchema :=
  { id := temp, author := "alice", date := 0, commit := "c2", target := "t",
    sdl := "type Query \x7b a: Int \x7d", service_name := "svc",
    service_url := some "http://svc", action := CompositeAction.ADD, metadata := none }

def witnessIncomingSingle : SingleSchema :=
  { id := temp, author := "alice", date := 0, commit := "c2", target := "t",
    sdl := "type Query \x7b a: Int \x7d", metadata := none }

def witnessPc : PublishComputation :=
  { validationResult :=
      { isComposable := true, hasBreakingChanges := false, errors := [], changes := [] },
    isInitial := true, previousService := none, incoming := witnessIncoming,
    schemasBefore := [], schemasAfter := [witnessIncoming], hasNewUrl := false,
    hasSchemaChanges := false, hasErrors := false, isForced := false,
    hasDifferentChecksum := false, isModified := false }

def witnessPcSingle : SinglePublishComputation :=
  { validationResult :=
      { isComposable := true, hasBreakingChanges := false, errors := [], changes := [] },
    isInitial := true, schemaBefore := none, incoming := witnessIncomingSingle,
    hasNewUrl := false, hasSchemaChanges := false, hasErrors := false, isForced := false,
    hasDifferentChecksum := false, isModified := false }

theorem c1_publish_conclusion_witness :
    ((Conclusion.Publish = Conclusion.Publish ∨ Conclusion.Publish = Conclusion.Reject) ∧
     (legacyFederationProject.isUsingLegacyRegistryModel = true →
       (Conclusion.Publish = Conclusion.Publish ↔
         ((witnessPc.validationResult.isComposable = true ∧
           witnessPc.validationResult.hasBreakingChanges = false) ∨
          samplePublishInput.force = some true))) ∧
     (legacyFederationProject.isUsingLegacyRegistryModel = false →
       (Conclusion.Publish = Conclusion.Publish ↔
         witnessPc.validationResult.isComposable = true))) ∧
    ((Conclusion.Publish = Conclusion.Publish ∨ Conclusion.Publish = Conclusion.Reject) ∧
     (legacySingleProject.isUsingLegacyRegistryModel = true →
       (Conclusion.Publish = Conclusion.Publish ↔
         ((witnessPcSingle.validationResult.isComposable = true ∧
           witnessPcSingle.validationResult.hasBreakingChanges = false) ∨
          samplePublishInput.force = some true))) ∧
     (legacySingleProject.isUsingLegacyRegistryModel = false →
       (Conclusion.Publish = Conclusion.Publish ↔
         witnessPcSingle.validationResult.isComposable = true))) :=
  ⟨(c1_publish_conclusion testEnv noopOrchestrator noopOrchestrator noopOrchestrator none
      0 samplePublishInput legacyFederationProject { id := "t" } [] none).1 witnessPc
      Conclusion.Publish true [] [] [] none witnessIncoming [] [witnessIncoming]
      (some { schemas := [witnessIncoming], supergraph := none }) true (by decide) (by decide),
   (c1_publish_conclusion testEnv noopOrchestrator noopOrchestrator noopOrchestrator none
      0 samplePublishInput legacySingleProject { id := "t" } [] none).2 witnessPcSingle
      Conclusion.Publish true [] [] [] none witnessIncomingSingle
      (some { schemas := [witnessIncomingSingle], supergraph := none }) true (by decide) (by decide)⟩

/-! ## Transport of checksums through the stable sort -/

theorem orderedInsertB_forall₂ {α : Type} (le : α → α → Bool) {R : α → α → Prop}
    (hle : ∀ a b x y, R a b → R x y → le a x = le b y) {a b : α} (hab : R a b) :
    ∀ {l₁ l₂ : List α}, List.Forall₂ R l₁ l₂ →
      List.Forall₂ R (orderedInsertB le a l₁) (orderedInsertB le b l₂) := by
  intro l₁ l₂ h
  induction h with
  | nil => exact List.Forall₂.cons hab List.Forall₂.nil
  | @cons x y l₁ l₂ hxy hrest ih =>
    simp only [orderedInsertB]
    rw [hle a b x y hab hxy]
    by_cases hcond : le b y = true
    · rw [if_pos hcond, if_pos hcond]
      exact .cons hab (.cons hxy hrest)
    · rw [if_neg hcond, if_neg hcond]
      exact .cons hxy ih

theorem insertionSortB_forall₂ {α : Type} (le : α → α → Bool) {R : α → α → Prop}
    (hle : ∀ a b x y, R a b → R x y → le a x = le b y) :
    ∀ {l₁ l₂ : List α}, List.Forall₂ R l₁ l₂ →
      List.Forall₂ R (insertionSortB le l₁) (insertionSortB le l₂) := by
  intro l₁ l₂ h
  induction h with
  | nil => exact .nil
  | cons hab _ ih => exact orderedInsertB_forall₂ le hle hab ih

theorem map_eq_of_forall₂ {α β : Type} {R : α → α → Prop} {f : α → β}
    (hf : ∀ a b, R a b → f a = f b) :
    ∀ {l₁ l₂ : List α}, List.Forall₂ R l₁ l₂ → l₁.map f = l₂.map f := by
  intro l₁ l₂ h
  induction h with
  | nil => rfl
  | cons hab _ ih => simp [hf _ _ hab, ih]

/-- Replacing services name-by-name with checksum-preserving substitutes
leaves the concatenated sorted checksum string unchanged. -/
theorem joinedChecksums_congr (env : DiffEnv) {l₁ l₂ : List CompositeSchema}
    (h : List.Forall₂
      (fun a b => a.service_name = b.service_name ∧
        createChecksum env a = createChecksum env b) l₁ l₂) :
    joinedChecksums env l₁ = joinedChecksums env l₂ := by
  have hsorted := insertionSortB_forall₂
    (fun a b : CompositeSchema => decide (a.service_name ≤ b.service_name))
    (fun a b x y hab hxy => by simp only []; rw [hab.1, hxy.1]) h
  have hmaps := map_eq_of_forall₂ (f := createChecksum env)
    (fun a b hab => hab.2) hsorted
  simp only [joinedChecksums, sortSchemas]
  rw [hmaps]

/-! ## Noop republish: helper lemmas for the neutral conclusion -/

theorem ensureCompositeSchemas_map (comps : List CompositeSchema) :
    ensureCompositeSchemas (comps.map Schema.composite) = .ok comps := by
  induction comps with
  | nil => rfl
  | cons c cs ih =>
    simp only [ensureCompositeSchemas, List.map_cons, List.mapM_cons] at ih ⊢
    rw [ih]
    rfl

theorem secondPublish_check (env : DiffEnv) (federation stitching : OrchestratorModel)
    (storedBaseSchema : Option String) (now : Nat) (project : Project) (accept : Bool)
    (serviceName sdlInput targetSel : String) (comps : List CompositeSchema)
    (S : CompositeSchema)
    (hS : (comps.filter fun s => s.service_name == serviceName).getLast? = some S)
    (hSsdl : S.sdl = sdlInput) (hne : comps ≠ []) :
    CompositeModel.check env federation stitching storedBaseSchema now project accept
      serviceName sdlInput targetSel (comps.map Schema.composite) =
      .ok { validationResult :=
              { isComposable := true, hasBreakingChanges := false, errors := [],
                changes := [] },
            orchestratorCalls := 0, isInitial := false, previousService := some S,
            schemasBefore := comps,
            schemasAfter := comps.map fun s =>
              if s.service_name == serviceName then
                { id := temp, author := temp, commit := temp, target := targetSel,
                  date := now, sdl := sdlInput, service_name := serviceName,
                  service_url := some temp,
                  action := if serviceExists comps serviceName then CompositeAction.MODIFY
                    else CompositeAction.ADD,
                  metadata := none }
              else s } := by
  have hempty : comps.isEmpty = false := by
    cases comps with
    | nil => exact absurd rfl hne
    | cons c cs => rfl
  simp only [CompositeModel.check, ensureCompositeSchemas_map, swapServices, hS,
    SchemaValidator.validate, hashSchema, createSchemaObject, hSsdl, hempty,
    beq_self_eq_true, if_true]
  simp [createSchemaObject, hSsdl]

theorem map_swap_then_id (comps : List CompositeSchema) (serviceName : String)
    (cin cfin : CompositeSchema) (hcin : cin.id = temp) (hcfin : cfin.id = temp)
    (hid : ∀ c ∈ comps, c.id ≠ temp) :
    (comps.map fun s => if s.service_name == serviceName then cin else s).map
        (fun s => if s.id == cfin.id then cfin else s) =
      comps.map fun s => if s.service_name == serviceName then cfin else s := by
  rw [List.map_map]
  apply List.map_congr_left
  intro s hs
  by_cases hm : (s.service_name == serviceName) = true
  · simp [Function.comp, hm, hcin, hcfin]
  · have hsid : (s.id == cfin.id) = false := by
      rw [hcfin]
      simpa using hid s hs
    simp [Function.comp, hm, hsid]

theorem joinedChecksums_swap (env : DiffEnv) (comps : List CompositeSchema)
    (serviceName : String) (cfin : CompositeSchema)
    (hname : cfin.service_name = serviceName)
    (hck : ∀ c ∈ comps, c.service_name = serviceName →
      createChecksum env cfin = createChecksum env c) :
    joinedChecksums env (comps.map fun s =>
      if s.service_name == serviceName then cfin else s) = joinedChecksums env comps := by
  apply joinedChecksums_congr
  rw [List.forall₂_map_left_iff]
  apply List.forall₂_same.mpr
  intro c hc
  by_cases hm : (c.service_name == serviceName) = true
  · rw [if_pos hm]
    exact ⟨by rw [hname]; exact (beq_iff_eq.mp hm).symm, hck c hc (beq_iff_eq.mp hm)⟩
  · rw [if_neg hm]
    exact ⟨rfl, rfl⟩

theorem secondPublish_stage (env : DiffEnv) (federation stitching : OrchestratorModel)
    (storedBaseSchema : Option String) (now : Nat) (input : PublishInput)
    (project : Project) (target : Target) (comps : List CompositeSchema)
    (version : Option String) (v serviceName : String) (S : CompositeSchema)
    (hsvc : input.service = some serviceName)
    (hname : trimModel serviceName ≠ "")
    (hurl : (requiresServiceUrl project &&
      (match input.url with
       | none => true
       | some u => trimModel u == "")) = false)
    (hver : version = some v)
    (hS : (comps.filter fun s => s.service_name == serviceName).getLast? = some S)
    (hne : comps ≠ [])
    (hsame : ∀ c ∈ comps, c.service_name = serviceName →
      (c.sdl = input.sdl ∧ c.service_url = input.url))
    (hid : ∀ c ∈ comps, c.id ≠ temp) :
    ∃ pc, CompositeModel.publishStage env federation stitching storedBaseSchema now input
        project target (comps.map Schema.composite) version = .ready pc ∧
      pc.isModified = false ∧ pc.isInitial = false := by
  have hSmem : S ∈ comps.filter fun s => s.service_name == serviceName := by
    obtain ⟨hnenil, hSeq⟩ := List.mem_getLast?_eq_getLast
      (l := comps.filter fun s => s.service_name == serviceName) (x := S) hS
    rw [hSeq]
    exact List.getLast_mem hnenil
  have hSin : S ∈ comps := (List.mem_filter.mp hSmem).1
  have hSname : S.service_name = serviceName := by
    have := (List.mem_filter.mp hSmem).2
    simpa using this
  have hSsdl : S.sdl = input.sdl := (hsame S hSin hSname).1
  have hSurl : S.service_url = input.url := (hsame S hSin hSname).2
  have hcheck := secondPublish_check env federation stitching storedBaseSchema now project
    (input.experimental_acceptBreakingChanges == some true ||
      !project.isUsingLegacyRegistryModel)
    serviceName input.sdl input.target comps S hS hSsdl hne
  refine ⟨{ validationResult :=
              { isComposable := true, hasBreakingChanges := false, errors := [],
                changes := [] },
            isInitial := false, previousService := some S,
            incoming :=
              { action := CompositeAction.MODIFY, id := temp, author := input.author,
                sdl := input.sdl, service_name := serviceName, service_url := input.url,
                commit := input.commit, target := target.id, date := now,
                metadata := if supportsMetadata project then input.metadata else none },
            schemasBefore := comps,
            schemasAfter := comps.map fun s =>
              if s.service_name == serviceName then
                { action := CompositeAction.MODIFY, id := temp, author := input.author,
                  sdl := input.sdl, service_name := serviceName, service_url := input.url,
                  commit := input.commit, target := target.id, date := now,
                  metadata := if supportsMetadata project then input.metadata else none }
              else s,
            hasNewUrl := false, hasSchemaChanges := false, hasErrors := false,
            isForced := input.force == some true, hasDifferentChecksum := false,
            isModified := false }, ?_, rfl, rfl⟩
  have hmap := map_swap_then_id comps serviceName
    { id := temp, author := temp, date := now, commit := temp, target := input.target,
      sdl := input.sdl, service_name := serviceName, service_url := some temp,
      action := if serviceExists comps serviceName then CompositeAction.MODIFY
        else CompositeAction.ADD,
      metadata := none }
    { action := CompositeAction.MODIFY, id := temp, author := input.author,
      sdl := input.sdl, service_name := serviceName, service_url := input.url,
      commit := input.commit, target := target.id, date := now,
      metadata := if supportsMetadata project then input.metadata else none }
    rfl rfl hid
  have hjc := joinedChecksums_swap env comps serviceName
    { action := CompositeAction.MODIFY, id := temp, author := input.author,
      sdl := input.sdl, service_name := serviceName, service_url := input.url,
      commit := input.commit, target := target.id, date := now,
      metadata := if supportsMetadata project then input.metadata else none }
    rfl
    (by
      intro c hc hcname
      simp [createChecksum, createSchemaObject, (hsame c hc hcname).1])
  simp only [CompositeModel.publishStage, hsvc]
  rw [if_neg hname]
  simp only [hurl, Bool.false_eq_true, if_false]
  rw [hcheck]
  simp only [Option.isSome_some, hver, hSurl, hmap, hjc, bne_self_eq_false,
    Bool.and_false, Bool.true_and, Bool.and_self, List.isEmpty_nil, Bool.not_true,
    Bool.or_self, Bool.false_or, if_true]

/-- A ready composite publish stage with `isModified = false` and
`isInitial = false` concludes `Neutral`. -/
theorem compositePublish_neutral_of_ready (env : DiffEnv)
    (federation stitching : OrchestratorModel) (storedBaseSchema : Option String)
    (now : Nat) (input : PublishInput) (project : Project) (target : Target)
    (currentSchemas : List Schema) (version : Option String) (pc : PublishComputation)
    (hstage : CompositeModel.publishStage env federation stitching storedBaseSchema now
      input project target currentSchemas version = .ready pc)
    (hm : pc.isModified = false) (hi : pc.isInitial = false) :
    CompositeModel.publish env federation stitching storedBaseSchema now input project
      target currentSchemas version = .neutral true false false := by
  simp only [CompositeModel.publish, hstage, hm, hi]
  simp

/-- A ready single publish stage with `isModified = false` and
`isInitial = false` concludes `Neutral`, reporting the validation result's
composability as `valid`. -/
theorem singlePublish_neutral_of_ready (env : DiffEnv)
    (orchestrator : OrchestratorModel) (storedBaseSchema : Option String) (now : Nat)
    (input : PublishInput) (project : Project) (target : Target)
    (currentSchemas : List Schema) (version : Option String)
    (pc : SinglePublishComputation)
    (hstage : SingleModel.publishStage env orchestrator storedBaseSchema now input project
      target currentSchemas version = .ready pc)
    (hm : pc.isModified = false) (hi : pc.isInitial = false) :
    SingleModel.publish env orchestrator storedBaseSchema now input project target
      currentSchemas version =
      .neutral pc.validationResult.isComposable pc.validationResult.isComposable false
        false := by
  simp only [SingleModel.publish, hstage, hm, hi]
  simp

/-- Claim C2: for every non-initial publish (composite or single), when the
computed `isModified` — `hasNewUrl ∨ hasSchemaChanges ∨ hasErrors ∨
hasDifferentChecksum`, the last comparing the concatenated per-service
checksums of the sorted prior set against the sorted next set — is false,
the model concludes `Neutral`; a `Neutral` model conclusion makes
`internalPublish` write no version; and in particular a second successive
publish to the same target (a live service with the published name, SDL and
URL already present and a version recorded) concludes `Neutral`. -/
theorem c2_noop_publish (env : DiffEnv)
    (federation stitching singleOrchestrator : OrchestratorModel)
    (storedBaseSchema : Option String) (now : Nat) (input : PublishInput)
    (project : Project) (target : Target) :
    (∀ currentSchemas version pc,
      CompositeModel.publishStage env federation stitching storedBaseSchema now input
        project target currentSchemas version = .ready pc →
      pc.isModified = false → pc.isInitial = false →
      CompositeModel.publish env federation stitching storedBaseSchema now input project
        target currentSchemas version = .neutral true false false) ∧
    (∀ currentSchemas version pc,
      SingleModel.publishStage env singleOrchestrator storedBaseSchema now input project
        target currentSchemas version = .ready pc →
      pc.isModified = false → pc.isInitial = false →
      SingleModel.publish env singleOrchestrator storedBaseSchema now input project target
        currentSchemas version =
        .neutral pc.validationResult.isComposable pc.validationResult.isComposable false
          false) ∧
    (∀ latestSchemas version valid ii im,
      (project.type == ProjectType.FEDERATION ||
        project.type == ProjectType.STITCHING) = true →
      CompositeModel.publish env federation stitching storedBaseSchema now input project
        target latestSchemas version = .neutral valid ii im →
      (SchemaPublisher.internalPublish env federation stitching singleOrchestrator
        storedBaseSchema now project target latestSchemas version input).2.filter
        Effect.isVersionStoreWrite = []) ∧
    (∀ latestSchemas version valid ic ii im,
      project.type = ProjectType.SINGLE →
      SingleModel.publish env singleOrchestrator storedBaseSchema now input project target
        latestSchemas version = .neutral valid ic ii im →
      (SchemaPublisher.internalPublish env federation stitching singleOrchestrator
        storedBaseSchema now project target latestSchemas version input).2.filter
        Effect.isVersionStoreWrite = []) ∧
    (∀ comps version v serviceName S,
      input.service = some serviceName →
      trimModel serviceName ≠ "" →
      (requiresServiceUrl project &&
        (match input.url with
         | none => true
         | some u => trimModel u == "")) = false →
      version = some v →
      (comps.filter fun s => s.service_name == serviceName).getLast? = some S →
      comps ≠ [] →
      (∀ c ∈ comps, c.service_name = serviceName →
        (c.sdl = input.sdl ∧ c.service_url = input.url)) →
      (∀ c ∈ comps, c.id ≠ temp) →
      CompositeModel.publish env federation stitching storedBaseSchema now input project
        target (comps.map Schema.composite) version = .neutral true false false) := by
  refine ⟨?_, ?_, ?_, ?_, ?_⟩
  · intro currentSchemas version pc hstage hm hi
    exact compositePublish_neutral_of_ready env federation stitching
      storedBaseSchema now input project target currentSchemas version pc hstage hm hi
  · intro currentSchemas version pc hstage hm hi
    exact singlePublish_neutral_of_ready env singleOrchestrator storedBaseSchema
      now input project target currentSchemas version pc hstage hm hi
  · intro latestSchemas version valid ii im htype hneu
    simp only [SchemaPublisher.internalPublish, htype, if_true, hneu]
    cases hgit : input.github <;> simp [hgit, Effect.isVersionStoreWrite]
  · intro latestSchemas version valid ic ii im htype hneu
    simp only [SchemaPublisher.internalPublish, htype, hneu]
    cases hgit : input.github <;> simp [hgit, Effect.isVersionStoreWrite]
  · intro comps version v serviceName S hsvc hname hurl hver hS hne hsame hid
    obtain ⟨pc, hstage, hm, hi⟩ := secondPublish_stage env federation stitching
      storedBaseSchema now input project target comps version v serviceName S hsvc hname
      hurl hver hS hne hsame hid
    exact compositePublish_neutral_of_ready env federation stitching
      storedBaseSchema now input project target (comps.map Schema.composite) version pc
      hstage hm hi

def sampleSingle : SingleSchema :=
  { id := "id1", author := "alice", date := 1, commit := "c1", target := "t",
    sdl := "type Query \x7b a: Int \x7d", metadata := none }

def secondPublishIncoming : CompositeSchema :=
  { id := temp, author := "alice", date := 0, commit := "c2", target := "t",
    sdl := "type Query \x7b a: Int \x7d", service_name := "svc",
    service_url := some "http://svc", action := CompositeAction.MODIFY, metadata := none }

def secondPc : PublishComputation :=
  { validationResult :=
      { isComposable := true, hasBreakingChanges := false, errors := [], changes := [] },
    isInitial := false, previousService := some sampleComposite,
    incoming := secondPublishIncoming, schemasBefore := [sampleComposite],
    schemasAfter := [secondPublishIncoming], hasNewUrl := false,
    hasSchemaChanges := false, hasErrors := false, isForced := false,
    hasDifferentChecksum := false, isModified := false }

def secondPcSingle : SinglePublishComputation :=
  { validationResult :=
      { isComposable := true, hasBreakingChanges := false, errors := [], changes := [] },
    isInitial := false, schemaBefore := some sampleSingle,
    incoming :=
      { id := temp, author := "alice", date := 0, commit := "c2", target := "t",
        sdl := "type Query \x7b a: Int \x7d", metadata := none },
    hasNewUrl := false, hasSchemaChanges := false, hasErrors := false, isForced := false,
    hasDifferentChecksum := false, isModified := false }

theorem c2_noop_publish_witness :
    CompositeModel.publish testEnv noopOrchestrator noopOrchestrator none 0
      samplePublishInput federationProject { id := "t" }
      [Schema.composite sampleComposite] (some "v1") = .neutral true false false ∧
    SingleModel.publish testEnv noopOrchestrator none 0 samplePublishInput singleProject
      { id := "t" } [Schema.single sampleSingle] (some "v1") =
      .neutral true true false false ∧
    (SchemaPublisher.internalPublish testEnv noopOrchestrator noopOrchestrator
      noopOrchestrator none 0 federationProject { id := "t" }
      [Schema.composite sampleComposite] (some "v1") samplePublishInput).2.filter
      Effect.isVersionStoreWrite = [] ∧
    (SchemaPublisher.internalPublish testEnv noopOrchestrator noopOrchestrator
      noopOrchestrator none 0 singleProject { id := "t" } [Schema.single sampleSingle]
      (some "v1") samplePublishInput).2.filter Effect.isVersionStoreWrite = [] ∧
    CompositeModel.publish testEnv noopOrchestrator noopOrchestrator none 0
      samplePublishInput federationProject { id := "t" }
      ([sampleComposite].map Schema.composite) (some "v1") = .neutral true false false :=
  ⟨(c2_noop_publish testEnv noopOrchestrator noopOrchestrator noopOrchestrator none 0
      samplePublishInput federationProject { id := "t" }).1
      [Schema.composite sampleComposite] (some "v1") secondPc (by decide) rfl rfl,
   (c2_noop_publish testEnv noopOrchestrator noopOrchestrator noopOrchestrator none 0
      samplePublishInput singleProject { id := "t" }).2.1
      [Schema.single sampleSingle] (some "v1") secondPcSingle (by decide) rfl rfl,
   (c2_noop_publish testEnv noopOrchestrator noopOrchestrator noopOrchestrator none 0
      samplePublishInput federationProject { id := "t" }).2.2.1
      [Schema.composite sampleComposite] (some "v1") true false false rfl (by decide),
   (c2_noop_publish testEnv noopOrchestrator noopOrchestrator noopOrchestrator none 0
      samplePublishInput singleProject { id := "t" }).2.2.2.1
      [Schema.single sampleSingle] (some "v1") true true false false rfl (by decide),
   (c2_noop_publish testEnv noopOrchestrator noopOrchestrator noopOrchestrator none 0
      samplePublishInput federationProject { id := "t" }).2.2.2.2
      [sampleComposite] (some "v1") "v1" "svc" sampleComposite rfl (by decide) (by decide)
      rfl rfl (by decide) (by decide) (by decide)⟩
